import Mathlib

/-!
Verification of the MiniMax gateway reasoning codec
(`src/vnag/gateways/minimax_gateway.py`).

The gateway's extraction hooks operate on dynamically typed Python
values: a message or delta object may carry a `reasoning_details`
attribute holding an array whose elements are either objects exposing a
`text` attribute, plain dictionaries, or anything else.  We embed the
dynamic values as the inductive `PyVal` below, and a message/delta as a
`Source`: a record carrying the optional `reasoning_details` array (the
wire contract fixes the attribute, when present, to an array; its
elements and their field values are arbitrary `PyVal`s).

Python string concatenation `thinking += detail["text"]` raises
`TypeError` when the right operand is not a string, so the flattening
extractors are embedded in `Except String`; the structured extractors
cannot fail on this domain and stay pure.
-/

namespace MinimaxGateway

/-- Embedded dynamic (Python) value: strings, ints, booleans, `None`,
lists, dictionaries with string keys, and attribute-bearing objects. -/
inductive PyVal where
  | str (s : String)
  | int (n : Int)
  | bool (b : Bool)
  | pynone
  | list (xs : List PyVal)
  | dict (entries : List (String × PyVal))
  | obj (attrs : List (String × PyVal))

/-- A Python dictionary with string keys, as produced by
`_get_reasoning_data` and consumed by the extraction loops. -/
abbrev PyDict := List (String × PyVal)

/-- Attribute lookup: `getattr(v, name)` when it exists.  Only `obj`
values expose attributes; `hasattr(v, name)` is `(attrGet v name).isSome`. -/
def attrGet (v : PyVal) (name : String) : Option PyVal :=
  match v with
  | .obj attrs => (attrs.find? (fun p => p.1 == name)).map (fun p => p.2)
  | _ => Option.none

/-- Dictionary lookup, `d.get(k)` (and `d[k]` when the key is present).
Python dictionaries have unique keys, so first-match lookup is faithful. -/
def dictGet (d : PyDict) (k : String) : Option PyVal :=
  (d.find? (fun p => p.1 == k)).map (fun p => p.2)

/-- Python truthiness: empty strings/collections, zero, `False` and
`None` are falsy, everything else truthy. -/
def pyTruthy : PyVal → Bool
  | .str s => !(s == "")
  | .int n => !(n == 0)
  | .bool b => b
  | .pynone => false
  | .list xs => !xs.isEmpty
  | .dict es => !es.isEmpty
  | .obj _ => true

/-- A message or streaming-delta object as seen by this codec: it either
lacks the `reasoning_details` attribute (`none`) or carries an array of
arbitrary values. -/
structure Source where
  reasoning_details : Option (List PyVal)

/-- The per-element normalization inside `_get_reasoning_data`'s loop:
an element exposing a `text` attribute becomes `{"text": element.text}`,
a plain dictionary is kept unchanged, anything else is skipped. -/
def detailToDict (detail : PyVal) : Option PyDict :=
  match attrGet detail "text" with
  | some v => some [("text", v)]
  | Option.none =>
    match detail with
    | .dict es => some es
    | _ => Option.none

/-- Embeds `MinimaxGateway._get_reasoning_data`: returns `None` when the
attribute is missing or falsy (empty array), otherwise the normalized
list of dictionaries, or `None` again when that list is empty. -/
def _get_reasoning_data (obj : Source) : Option (List PyDict) :=
  match obj.reasoning_details with
  | Option.none => Option.none
  | some rd =>
    if rd.isEmpty then Option.none
    else
      let data := rd.filterMap detailToDict
      if data.isEmpty then Option.none else some data

/-- The message raised by `str.__add__` on a non-string right operand. -/
def strConcatTypeError : String :=
  "TypeError: can only concatenate str to str"

/-- The accumulation loop of `_extract_thinking` /
`_extract_thinking_delta`: for each dictionary whose `"text"` value is
truthy, append it to the accumulator; Python `+=` raises `TypeError`
when that value is not a string.  (The loop's `isinstance(detail, dict)`
guard is always satisfied: `_get_reasoning_data` only returns
dictionaries.) -/
def extractLoop : List PyDict → String → Except String String
  | [], acc => .ok acc
  | d :: rest, acc =>
    match dictGet d "text" with
    | some v =>
      if pyTruthy v then
        match v with
        | .str s => extractLoop rest (acc ++ s)
        | _ => .error strConcatTypeError
      else extractLoop rest acc
    | Option.none => extractLoop rest acc

/-- Embeds `MinimaxGateway._extract_thinking`. -/
def _extract_thinking (message : Source) : Except String String :=
  match _get_reasoning_data message with
  | Option.none => .ok ""
  | some rd => if rd.isEmpty then .ok "" else extractLoop rd ""

/-- Embeds `MinimaxGateway._extract_reasoning`. -/
def _extract_reasoning (message : Source) : List PyDict :=
  match _get_reasoning_data message with
  | Option.none => []
  | some d => if d.isEmpty then [] else d

/-- Embeds `MinimaxGateway._extract_thinking_delta`; its body in the
source is identical to `_extract_thinking`'s, applied to a delta. -/
def _extract_thinking_delta (delta : Source) : Except String String :=
  match _get_reasoning_data delta with
  | Option.none => .ok ""
  | some rd => if rd.isEmpty then .ok "" else extractLoop rd ""

/-- Embeds `MinimaxGateway._extract_reasoning_delta`; its body in the
source is identical to `_extract_reasoning`'s. -/
def _extract_reasoning_delta (delta : Source) : List PyDict :=
  match _get_reasoning_data delta with
  | Option.none => []
  | some d => if d.isEmpty then [] else d

/-- Embeds `MinimaxGateway._get_extra_body`. -/
def _get_extra_body : PyDict :=
  [("reasoning_split", .bool true)]

/-- Embeds `MinimaxGateway._convert_thinking_for_request`. -/
def _convert_thinking_for_request (thinking : String) : PyDict :=
  [("reasoning_details", .list [.dict [("text", .str thinking)]])]

/-- Embeds `MinimaxGateway.list_models`. -/
def list_models : List String :=
  [ "MiniMax-M2"
  , "MiniMax-M2-Stable"
  , "MiniMax-M2.1"
  , "MiniMax-M2.1-Lighting"
  , "MiniMax-M2.5"
  , "MiniMax-M2.5-Lightning" ]

/-- Builds a message whose `reasoning_details` attribute is the list
carried by a request fragment's `"reasoning_details"` key (the replay
path: the fragment is merged into the assistant message of the next
request, whose attribute is then exactly that list). -/
def fragmentToSource (frag : PyDict) : Source :=
  { reasoning_details :=
      match dictGet frag "reasoning_details" with
      | some (.list xs) => some xs
      | _ => Option.none }

/-! ### Specification-side definitions

These definitions follow the wording of the specification (not the
source); the theorems below compare the embedded source functions
against them. -/

/-- Whether a dynamic value is a plain mapping (a Python `dict`). -/
def isMapping : PyVal → Bool
  | .dict _ => true
  | _ => false

/-- The entries of a plain mapping (meaningful only when `isMapping`). -/
def mappingEntries : PyVal → PyDict
  | .dict es => es
  | _ => []

/-- Spec wording for the per-element rule of `getReasoningData`: an
element exposing a `text` field produces a singleton mapping holding
that field, a plain mapping passes through unchanged, and anything else
is skipped. -/
def specKeepDetail (detail : PyVal) : Option PyDict :=
  if (attrGet detail "text").isSome then
    (attrGet detail "text").map (fun v => [("text", v)])
  else if isMapping detail then some (mappingEntries detail)
  else Option.none

/-- Spec wording for the flattened view: the concatenation, in bundle
order and with no separator, of each detail's string `text` value,
details whose `text` is missing or empty contributing nothing. -/
def concatTexts : List PyDict → String
  | [] => ""
  | d :: rest =>
    (match dictGet d "text" with
     | some (.str s) => s
     | _ => "") ++ concatTexts rest

/-- A dynamic value is safe to concatenate in the extraction loop: it is
either a string or falsy (a falsy value is skipped before the `+=`). -/
def textOkVal : PyVal → Bool
  | .str _ => true
  | v => !pyTruthy v

/-- All truthy `"text"` values of a normalized detail are strings. -/
def detailTextOk (d : PyDict) : Bool :=
  match dictGet d "text" with
  | some v => textOkVal v
  | Option.none => true

/-- All truthy `"text"` values reachable from a source are strings: the
exact condition under which Python's `+=` in the extraction loop cannot
raise `TypeError`. -/
def sourceTextsOk (msg : Source) : Bool :=
  match _get_reasoning_data msg with
  | Option.none => true
  | some rd => rd.all detailTextOk

/-! ### Helper lemmas -/

/-- The source's per-element normalization agrees with the spec's
per-element rule. -/
theorem detailToDict_eq_spec (d : PyVal) : detailToDict d = specKeepDetail d := by
  cases d <;>
    simp only [detailToDict, specKeepDetail, attrGet, isMapping, mappingEntries] <;>
    try simp
  case obj attrs =>
    cases h : (attrs.find? (fun p => p.1 == "text")).map (fun p => p.2) <;>
      simp [← Option.map_map, h]

/-- On details whose truthy texts are strings, the extraction loop
succeeds and returns the accumulator followed by the concatenation of
the truthy text strings. -/
theorem extractLoop_ok : ∀ (rd : List PyDict) (acc : String),
    rd.all detailTextOk = true →
    extractLoop rd acc = Except.ok (acc ++ concatTexts rd)
  | [], acc, _ => by simp [extractLoop, concatTexts]
  | d :: rest, acc, h => by
    simp only [List.all_cons, Bool.and_eq_true] at h
    obtain ⟨hd, hrest⟩ := h
    simp only [extractLoop, concatTexts]
    cases hv : dictGet d "text" with
    | none =>
      simp [extractLoop_ok rest acc hrest]
    | some v =>
      simp only [detailTextOk, hv] at hd
      cases v with
      | str s =>
        by_cases hs : s = ""
        · subst hs
          simp [pyTruthy, extractLoop_ok rest acc hrest]
        · have ht : pyTruthy (PyVal.str s) = true := by simp [pyTruthy, hs]
          simp [ht, extractLoop_ok rest (acc ++ s) hrest, String.append_assoc]
      | int n =>
        simp only [textOkVal, Bool.not_eq_true'] at hd
        simp [hd, extractLoop_ok rest acc hrest]
      | bool b =>
        simp only [textOkVal, Bool.not_eq_true'] at hd
        simp [hd, extractLoop_ok rest acc hrest]
      | pynone =>
        simp [pyTruthy, extractLoop_ok rest acc hrest]
      | list xs =>
        simp only [textOkVal, Bool.not_eq_true'] at hd
        simp [hd, extractLoop_ok rest acc hrest]
      | dict es =>
        simp only [textOkVal, Bool.not_eq_true'] at hd
        simp [hd, extractLoop_ok rest acc hrest]
      | obj attrs =>
        simp [textOkVal, pyTruthy] at hd

/-! ### Concrete example sources -/

/-- A message without the `reasoning_details` attribute. -/
def srcNoAttr : Source := ⟨Option.none⟩

/-- A message with `reasoning_details = [{"text": "a"}, {"text": "b"}]`. -/
def srcAB : Source :=
  ⟨some [.dict [("text", .str "a")], .dict [("text", .str "b")]]⟩

/-- A message with `reasoning_details = [{"text": "a"}, {}, {"text": "b"}]`. -/
def srcAGapB : Source :=
  ⟨some [.dict [("text", .str "a")], .dict [], .dict [("text", .str "b")]]⟩

/-- A message with `reasoning_details = [{}]`: one plain empty mapping. -/
def srcEmptyDict : Source := ⟨some [.dict []]⟩

/-- A message with `reasoning_details = [{"text": 5}]`: a plain mapping
whose `text` value is the integer `5`. -/
def srcIntText : Source := ⟨some [.dict [("text", .int 5)]]⟩

/-- A message with `reasoning_details = [{"text": True}]`. -/
def srcBoolText : Source := ⟨some [.dict [("text", .bool true)]]⟩

/-- A message with `reasoning_details = [{"text": 7}]`. -/
def srcInt7Text : Source := ⟨some [.dict [("text", .int 7)]]⟩

/-! ### Claim theorems -/

/-- C6: the streaming-delta extraction operations agree with the
full-message ones on every input: `_extract_thinking_delta` equals
`_extract_thinking` and `_extract_reasoning_delta` equals
`_extract_reasoning` (their bodies are identical in the source). -/
theorem delta_extraction_agrees (x : Source) :
    _extract_thinking_delta x = _extract_thinking x ∧
    _extract_reasoning_delta x = _extract_reasoning x :=
  ⟨rfl, rfl⟩

/-- C7: `_convert_thinking_for_request` always returns exactly
`{"reasoning_details": [{"text": thinking}]}` — a single-key mapping
holding exactly one detail with the full input text — for every input
string, the empty string included. -/
theorem convert_thinking_single_detail (thinking : String) :
    _convert_thinking_for_request thinking =
      [("reasoning_details",
        PyVal.list [PyVal.dict [("text", PyVal.str thinking)]])] :=
  rfl

/-- C8: `_get_extra_body` takes no inputs, cannot fail, and always
returns exactly the mapping `{"reasoning_split": True}`. -/
theorem get_extra_body_constant :
    _get_extra_body = [("reasoning_split", PyVal.bool true)] :=
  rfl

/-- C9: `list_models` always returns exactly the six literal MiniMax
model identifiers, in the declared order, with `MiniMax-M2` first. -/
theorem list_models_catalog :
    list_models =
      [ "MiniMax-M2", "MiniMax-M2-Stable", "MiniMax-M2.1"
      , "MiniMax-M2.1-Lighting", "MiniMax-M2.5", "MiniMax-M2.5-Lightning" ] ∧
    list_models.head? = some "MiniMax-M2" :=
  ⟨rfl, rfl⟩

/-- C3 counterexample: on the message whose `reasoning_details` is
`[{"text": 5}]` the source's `_extract_thinking` raises `TypeError`
(`thinking += detail["text"]` with a non-string truthy value), so it
does not always return a string. -/
theorem extract_thinking_raises_on_int_text :
    _extract_thinking srcIntText = Except.error strConcatTypeError :=
  rfl

/-- C5 counterexample: on the delta whose `reasoning_details` is
`[{"text": True}]` the source's `_extract_thinking_delta` raises
`TypeError`, so the extraction operations are not total over arbitrary
input. -/
theorem extract_thinking_delta_raises_on_bool_text :
    _extract_thinking_delta srcBoolText = Except.error strConcatTypeError :=
  rfl

/-- C4 counterexample: a plain empty mapping in `reasoning_details`
passes through `_get_reasoning_data` unchanged, so the bundle returned
by `_extract_reasoning` contains an empty mapping (an entry that is
empty and lacks a `text` value). -/
theorem extract_reasoning_keeps_empty_mapping :
    _extract_reasoning srcEmptyDict = [([] : PyDict)] :=
  rfl

/-- C10 counterexample: on the message whose `reasoning_details` is
`[{"text": 7}]`, `_extract_reasoning` returns a bundle with one entry
carrying a present, truthy `text` value, yet `_extract_thinking` raises
`TypeError` instead of returning any concatenation of text values. -/
theorem thinking_reasoning_mismatch_on_int_text :
    _extract_thinking srcInt7Text = Except.error strConcatTypeError ∧
    _extract_reasoning srcInt7Text = [[("text", PyVal.int 7)]] :=
  ⟨rfl, rfl⟩

/-- C1: single-detail round trip is exact: for any string T, building a
replay fragment from T with `_convert_thinking_for_request` and then
extracting thinking from a message whose `reasoning_details` is that
fragment's list yields exactly T. -/
theorem single_detail_round_trip (T : String) :
    _extract_thinking (fragmentToSource (_convert_thinking_for_request T)) =
      Except.ok T := by
  by_cases hT : T = ""
  · subst hT; rfl
  · have ht : pyTruthy (PyVal.str T) = true := by simp [pyTruthy, hT]
    simp [_convert_thinking_for_request, fragmentToSource, dictGet,
      _extract_thinking, _get_reasoning_data, detailToDict, attrGet,
      extractLoop, ht, List.find?]

/-- C2: `_get_reasoning_data` returns absent exactly when the source
lacks the `reasoning_details` attribute, the attribute is empty, or
every element is filtered out; otherwise it returns the per-element
normalization (text-attribute objects become singleton text mappings,
plain mappings pass through unchanged, other shapes are skipped). -/
theorem get_reasoning_data_spec (obj : Source) :
    (_get_reasoning_data obj = Option.none ↔
      obj.reasoning_details = Option.none ∨
      obj.reasoning_details = some ([] : List PyVal) ∨
      ∃ rd, obj.reasoning_details = some rd ∧
        ∀ d ∈ rd, specKeepDetail d = Option.none) ∧
    (∀ rd, obj.reasoning_details = some rd →
      rd.filterMap specKeepDetail ≠ [] →
      _get_reasoning_data obj = some (rd.filterMap specKeepDetail)) := by
  obtain ⟨rdo⟩ := obj
  have hfm : detailToDict = specKeepDetail := funext detailToDict_eq_spec
  cases rdo with
  | none => simp [_get_reasoning_data]
  | some rd =>
    by_cases hrd : rd = []
    · subst hrd
      simp [_get_reasoning_data]
    · by_cases hdata : rd.filterMap specKeepDetail = []
      · have hval : _get_reasoning_data ⟨some rd⟩ = Option.none := by
          simp only [_get_reasoning_data, hfm]
          rw [if_neg (by simpa [List.isEmpty_iff] using hrd),
            if_pos (by simpa [List.isEmpty_iff] using hdata)]
        constructor
        · rw [hval]
          constructor
          · intro _
            exact Or.inr (Or.inr ⟨rd, rfl, List.filterMap_eq_nil_iff.mp hdata⟩)
          · intro _; rfl
        · intro rd' hrd' hne
          have h2 : some rd = some rd' := hrd'
          have heq : rd = rd' := by injection h2
          subst heq
          exact absurd hdata hne
      · have hval : _get_reasoning_data ⟨some rd⟩ =
            some (rd.filterMap specKeepDetail) := by
          simp only [_get_reasoning_data, hfm]
          rw [if_neg (by simpa [List.isEmpty_iff] using hrd),
            if_neg (by simpa [List.isEmpty_iff] using hdata)]
        constructor
        · rw [hval]
          constructor
          · intro hcontra
            exact absurd hcontra (by simp)
          · rintro (h1 | h2 | ⟨rd', hrd', hall⟩)
            · exact absurd (show some rd = Option.none from h1) (by simp)
            · have h2' : some rd = some ([] : List PyVal) := h2
              have hnil : rd = [] := by injection h2'
              exact absurd hnil hrd
            · have h2 : some rd = some rd' := hrd'
              have heq : rd = rd' := by injection h2
              subst heq
              exact absurd (List.filterMap_eq_nil_iff.mpr hall) hdata
        · intro rd' hrd' hne
          have h2 : some rd = some rd' := hrd'
          have heq : rd = rd' := by injection h2
          subst heq
          exact hval

/-- C3 (amended): `_extract_thinking` returns the empty string when
`_get_reasoning_data` is absent and otherwise the concatenation, in
bundle order with no separator, of the truthy `text` values, missing or
empty texts contributing nothing — provided every truthy `text` value is
a string; on a truthy non-string `text` value it raises `TypeError`
instead of returning a string. -/
theorem extract_thinking_concat_of_string_texts (message : Source)
    (h : sourceTextsOk message = true) :
    (_get_reasoning_data message = Option.none →
      _extract_thinking message = Except.ok "") ∧
    (∀ rd, _get_reasoning_data message = some rd →
      _extract_thinking message = Except.ok (concatTexts rd)) := by
  constructor
  · intro hnone
    simp [_extract_thinking, hnone]
  · intro rd hrd
    simp only [sourceTextsOk, hrd] at h
    simp only [_extract_thinking, hrd]
    by_cases hrd0 : rd.isEmpty
    · rw [List.isEmpty_iff.mp hrd0]
      simp [concatTexts]
    · simp only [hrd0, Bool.false_eq_true, if_false]
      rw [extractLoop_ok rd "" h, String.empty_append]

/-- C3 witness: on `reasoning_details = [{"text": "a"}, {}, {"text": "b"}]`
the extraction returns exactly `"ab"`. -/
theorem extract_thinking_concat_witness :
    _extract_thinking srcAGapB = Except.ok "ab" :=
  ((extract_thinking_concat_of_string_texts srcAGapB rfl).2
      [[("text", .str "a")], [], [("text", .str "b")]] rfl).trans rfl

/-- C4 (amended): `_extract_reasoning` and `_extract_reasoning_delta`
return exactly the per-element normalization of the attribute's list,
preserving order and duplicates; the elements dropped are exactly those
that neither expose a `text` field nor are plain mappings, while plain
mappings — even empty ones or ones lacking a `text` value — pass through
unchanged; the two-detail example bundle is returned unchanged. -/
theorem extract_reasoning_filter_shape :
    (∀ msg : Source,
      _extract_reasoning msg =
        (msg.reasoning_details.getD []).filterMap specKeepDetail ∧
      _extract_reasoning_delta msg =
        (msg.reasoning_details.getD []).filterMap specKeepDetail) ∧
    _extract_reasoning srcAB =
      [[("text", PyVal.str "a")], [("text", PyVal.str "b")]] := by
  have hfm : detailToDict = specKeepDetail := funext detailToDict_eq_spec
  have key : ∀ msg : Source,
      _extract_reasoning msg =
        (msg.reasoning_details.getD []).filterMap specKeepDetail := by
    intro msg
    obtain ⟨rdo⟩ := msg
    cases rdo with
    | none => simp [_extract_reasoning, _get_reasoning_data]
    | some rd =>
      by_cases hrd : rd = []
      · subst hrd
        simp [_extract_reasoning, _get_reasoning_data]
      · by_cases hdata : rd.filterMap specKeepDetail = []
        · have hval : _get_reasoning_data ⟨some rd⟩ = Option.none := by
            simp only [_get_reasoning_data, hfm]
            rw [if_neg (by simpa [List.isEmpty_iff] using hrd),
              if_pos (by simpa [List.isEmpty_iff] using hdata)]
          simp [_extract_reasoning, hval, hdata]
        · have hval : _get_reasoning_data ⟨some rd⟩ =
              some (rd.filterMap specKeepDetail) := by
            simp only [_get_reasoning_data, hfm]
            rw [if_neg (by simpa [List.isEmpty_iff] using hrd),
              if_neg (by simpa [List.isEmpty_iff] using hdata)]
          have hne : (rd.filterMap specKeepDetail).isEmpty = false :=
            Bool.eq_false_iff.mpr (fun hc => hdata (List.isEmpty_iff.mp hc))
          simp [_extract_reasoning, hval, hne]
  have hdelta : ∀ msg : Source,
      _extract_reasoning_delta msg = _extract_reasoning msg := fun _ => rfl
  exact ⟨fun msg => ⟨key msg, (hdelta msg).trans (key msg)⟩, rfl⟩

/-- C5 (amended): the extraction operations never raise provided every
truthy `text` value reachable from the input is a string; missing
attributes and empty arrays degrade to absent/empty results (on a truthy
non-string `text` value the flattening extractors raise `TypeError`). -/
theorem extraction_total_on_string_texts (x : Source)
    (h : sourceTextsOk x = true) :
    (∃ s, _extract_thinking x = Except.ok s) ∧
    (∃ s, _extract_thinking_delta x = Except.ok s) ∧
    (x.reasoning_details = Option.none →
      _extract_thinking x = Except.ok "" ∧
      _extract_thinking_delta x = Except.ok "" ∧
      _extract_reasoning x = [] ∧
      _extract_reasoning_delta x = [] ∧
      _get_reasoning_data x = Option.none) := by
  have hok : ∃ s, _extract_thinking x = Except.ok s := by
    cases hg : _get_reasoning_data x with
    | none => exact ⟨"", by simp [_extract_thinking, hg]⟩
    | some rd =>
      simp only [sourceTextsOk, hg] at h
      by_cases hrd : rd.isEmpty
      · exact ⟨"", by simp [_extract_thinking, hg, hrd]⟩
      · refine ⟨concatTexts rd, ?_⟩
        simp only [_extract_thinking, hg, hrd, Bool.false_eq_true, if_false]
        rw [extractLoop_ok rd "" h, String.empty_append]
  refine ⟨hok, ?_, ?_⟩
  · obtain ⟨s, hs⟩ := hok
    have hdel : _extract_thinking_delta x = _extract_thinking x := rfl
    exact ⟨s, hdel.trans hs⟩
  · intro hnone
    have hg : _get_reasoning_data x = Option.none := by
      simp [_get_reasoning_data, hnone]
    exact ⟨by simp [_extract_thinking, hg],
      by simp [_extract_thinking_delta, hg],
      by simp [_extract_reasoning, hg],
      by simp [_extract_reasoning_delta, hg], hg⟩

/-- C5 witness: on a message lacking the attribute, the extraction
operations return the empty string and the empty bundle. -/
theorem extraction_total_witness :
    _extract_thinking srcNoAttr = Except.ok "" ∧
    _extract_reasoning srcNoAttr = [] :=
  ⟨((extraction_total_on_string_texts srcNoAttr rfl).2.2 rfl).1,
   ((extraction_total_on_string_texts srcNoAttr rfl).2.2 rfl).2.2.1⟩

/-- C10 (amended): whenever every truthy `text` value reachable from the
source is a string (so the extraction loop cannot raise),
`_extract_thinking` equals the concatenation, in order, of the truthy
string `text` values of the entries of `_extract_reasoning`. -/
theorem thinking_eq_concat_reasoning (source : Source)
    (h : sourceTextsOk source = true) :
    _extract_thinking source =
      Except.ok (concatTexts (_extract_reasoning source)) := by
  unfold _extract_thinking _extract_reasoning
  cases hg : _get_reasoning_data source with
  | none => simp [concatTexts]
  | some rd =>
    simp only [sourceTextsOk, hg] at h
    by_cases hrd : rd.isEmpty
    · rw [List.isEmpty_iff.mp hrd] at *
      simp [concatTexts]
    · simp only [hrd, Bool.false_eq_true, if_false]
      rw [extractLoop_ok rd "" h, String.empty_append]

/-- C10 witness: on the two-detail bundle the flattened view is the
concatenation `"ab"` of the structured view's texts. -/
theorem thinking_eq_concat_witness :
    _extract_thinking srcAB = Except.ok "ab" :=
  (thinking_eq_concat_reasoning srcAB rfl).trans rfl

end MinimaxGateway
